import Mathlib

/-!
# Verification of the `binseg` segment-schema compiler

Shallow embedding of `src/lib.rs` (the `segment_binary!` macro). The macro
generates, for a schema `(name, expected hash string, segment ranges)`:

* a holder struct `pub struct Name { bin_data: Vec<u8> }`;
* a loader `from_file(path) -> std::io::Result<Name>` that opens the file,
  reads it to the end (propagating I/O errors with `?`), computes the
  SHA-256 hex digest of the bytes via the external `crypto_hash` crate,
  compares it against the expected hash string with
  `assert_eq!(actual, given, "incorrect file")` (aborting on mismatch), and
  on success wraps the bytes in the holder;
* one accessor per segment, `pub fn seg(&self) -> &[u8] { &self.bin_data[start..end] }`,
  where Rust range-slicing panics unless `start <= end && end <= len`.

Modelling choices:

* Bytes are `List Nat`.  The filesystem interaction of `from_file`
  (`File::open` + `read_to_end`) is modelled by its outcome, an
  `Except IOErr (List Nat)`: either a typed I/O error or the full contents.
* The hashing collaborator is external to this repository (`crypto_hash`
  re-export); `from_file` depends on it only through the contract
  "digest(bytes) → lowercase-hex string", so the model is parametric in a
  `digest : List Nat → String` function.
* The `assert_eq!` abort is a distinct outcome of the loader
  (`LoadResult.aborted`), separate from the typed I/O error and success.
* Accessors are `&self` methods with no mutation; the state-passing
  translation of a method body returns the result together with the
  post-state of the receiver.
-/

/-- A typed I/O error, as carried by `std::io::Error` (`File::open` /
`read_to_end` failures: not found, permission denied, truncated read, ...).
The `cause` field models the error's kind/payload identifying the underlying
cause. -/
structure IOErr where
  cause : String
deriving DecidableEq, Repr

/-- Outcome of running the generated `from_file` body.  `ok` is the
`Ok(holder)` value of the returned `std::io::Result`; `ioErr` is the `Err(e)`
value produced by the `?` operator on `File::open`/`read_to_end`; `aborted`
is the process-terminating `assert_eq!` panic (carrying its message), which
never returns a value to the caller. -/
inductive LoadResult (α : Type) where
  | ok : α → LoadResult α
  | ioErr : IOErr → LoadResult α
  | aborted : String → LoadResult α
deriving DecidableEq, Repr

/-- The generated holder struct: `pub struct Name { bin_data: Vec<u8> }`.
It exclusively owns the byte buffer read from the file. -/
structure BinaryHolder where
  bin_data : List Nat
deriving DecidableEq, Repr

/-- One segment declaration of a schema: `ident : start..stop` (a half-open
Rust range `start..stop`; `stop` is the exclusive end, named `end` in the
spec but `end` is reserved in Lean). -/
structure SegmentDescriptor where
  start : Nat
  stop : Nat
deriving DecidableEq, Repr

/-- Rust's `&v[start..stop]` on a `Vec<u8>`: panics (here: `none`) unless
`start ≤ stop ∧ stop ≤ v.length`, otherwise yields the elements at indices
`start, start+1, ..., stop-1`. -/
def sliceRange (v : List Nat) (start stop : Nat) : Option (List Nat) :=
  if start ≤ stop ∧ stop ≤ v.length then
    some ((v.drop start).take (stop - start))
  else
    none

/-- The generated loader body `from_file`, parametric in the external
hashing collaborator `digest` (the model of
`hex_digest(Algorithm::SHA256, ·)`), the schema's expected hash string, and
the outcome of `File::open(path)` + `read_to_end` (a typed I/O error or the
complete file contents `bin_data`).

Mirrors the source: I/O errors are propagated by `?`; then
`given_hash = String::from(hash_string)`,
`actual_file_hash = hex_digest(SHA256, &bin_data)`,
`assert_eq!(actual_file_hash, given_hash, "incorrect file")` aborts on
mismatch, and on match the holder `{ bin_data }` is returned in `Ok`. -/
def from_file (digest : List Nat → String) (hash_string : String)
    (readOutcome : Except IOErr (List Nat)) : LoadResult BinaryHolder :=
  match readOutcome with
  | Except.error e => LoadResult.ioErr e
  | Except.ok bin_data =>
    let given_hash := hash_string
    let actual_file_hash := digest bin_data
    if actual_file_hash = given_hash then
      LoadResult.ok { bin_data := bin_data }
    else
      LoadResult.aborted ("incorrect file")

/-- The generated segment accessor
`pub fn seg(&self) -> &[u8] { &self.bin_data[start..stop] }`: the value it
returns (with Rust's slicing panic modelled as `none`). -/
def segAccessor (seg : SegmentDescriptor) (self : BinaryHolder) :
    Option (List Nat) :=
  sliceRange self.bin_data seg.start seg.stop

/-- State-passing translation of calling the accessor method on the
receiver: the method body only reads `self.bin_data` (the receiver is an
immutable `&self` borrow, and the body contains no assignment), so the
post-state of the receiver is the receiver itself. -/
def segAccessorRun (seg : SegmentDescriptor) (self : BinaryHolder) :
    Option (List Nat) × BinaryHolder :=
  (sliceRange self.bin_data seg.start seg.stop, self)

/-- Lowercase-hex alphabet of the hashing collaborator's output
(spec §6: "a SHA-256 implementation producing a lowercase-hex digest
string"). -/
def isLowerHexChar (c : Char) : Bool :=
  decide (('0'.toNat ≤ c.toNat ∧ c.toNat ≤ '9'.toNat) ∨
          ('a'.toNat ≤ c.toNat ∧ c.toNat ≤ 'f'.toNat))

/-- The contract of the external hashing collaborator: every character of
every digest string it produces is a lowercase hex digit. -/
def LowerHexDigest (digest : List Nat → String) : Prop :=
  ∀ b : List Nat, ((digest b).data.all isLowerHexChar) = true

/-- A string contains an uppercase letter (`A`–`Z`). -/
def hasUpperChar (s : String) : Bool :=
  s.data.any (fun c => decide ('A'.toNat ≤ c.toNat ∧ c.toNat ≤ 'Z'.toNat))

/-! ## Helper lemmas about `sliceRange` -/

theorem sliceRange_eq_some (v : List Nat) (start stop : Nat)
    (hle : start ≤ stop) (hstop : stop ≤ v.length) :
    sliceRange v start stop = some ((v.drop start).take (stop - start)) := by
  simp [sliceRange, hle, hstop]

theorem sliceRange_length (v : List Nat) (start stop : Nat)
    (hle : start ≤ stop) (hstop : stop ≤ v.length) :
    ((v.drop start).take (stop - start)).length = stop - start := by
  simp only [List.length_take, List.length_drop]
  omega

theorem sliceRange_getElem (v : List Nat) (start stop i : Nat)
    (hi : i < stop - start) :
    ((v.drop start).take (stop - start))[i]? = v[start + i]? := by
  rw [List.getElem?_take, if_pos hi, List.getElem?_drop]


/-! ## Claim theorems -/

/-- C1: for every schema and every file whose digest matches the schema's
expected digest, `from_file` succeeds and returns the holder of the file's
bytes, and for every declared segment with range `[start, stop)` (a range
for which the slice of the file content exists, i.e. `start ≤ stop ≤ len`)
the accessor returns a view of length `stop - start` whose bytes equal the
slice `[start, stop)` of the original file content. -/
theorem c1_matching_digest_loads_and_slices
    (digest : List Nat → String) (hash_string : String) (b : List Nat)
    (seg : SegmentDescriptor)
    (hmatch : digest b = hash_string)
    (hle : seg.start ≤ seg.stop) (hstop : seg.stop ≤ b.length) :
    from_file digest hash_string (Except.ok b)
      = LoadResult.ok { bin_data := b } ∧
    ∃ w, segAccessor seg { bin_data := b } = some w ∧
      w.length = seg.stop - seg.start ∧
      ∀ i < seg.stop - seg.start, w[i]? = b[seg.start + i]? := by
  refine ⟨by simp [from_file, hmatch], ?_⟩
  refine ⟨(b.drop seg.start).take (seg.stop - seg.start), ?_, ?_, ?_⟩
  · exact sliceRange_eq_some b seg.start seg.stop hle hstop
  · exact sliceRange_length b seg.start seg.stop hle hstop
  · intro i hi
    exact sliceRange_getElem b seg.start seg.stop i hi

/-- C1 witness: the beef-file scenario, bytes `DE AD BE EF`, segment
`1..3`. -/
theorem c1_witness :
    from_file (fun _ => "ab") "ab" (Except.ok [222, 173, 190, 239])
      = LoadResult.ok { bin_data := [222, 173, 190, 239] } ∧
    ∃ w, segAccessor { start := 1, stop := 3 }
        { bin_data := [222, 173, 190, 239] } = some w ∧
      w.length = 3 - 1 ∧
      ∀ i < 3 - 1, w[i]? = [222, 173, 190, 239][1 + i]? :=
  c1_matching_digest_loads_and_slices (fun _ => "ab") "ab"
    [222, 173, 190, 239] { start := 1, stop := 3 } rfl (by decide) (by decide)

/-- C2: for every file whose computed digest does not equal the schema's
expected digest string, `from_file` aborts via the assertion (with message
"incorrect file") and never produces a holder. -/
theorem c2_digest_mismatch_aborts
    (digest : List Nat → String) (hash_string : String) (b : List Nat)
    (hmismatch : digest b ≠ hash_string) :
    from_file digest hash_string (Except.ok b)
      = LoadResult.aborted ("incorrect file") ∧
    ∀ h : BinaryHolder,
      from_file digest hash_string (Except.ok b) ≠ LoadResult.ok h := by
  refine ⟨by simp [from_file, hmismatch], ?_⟩
  intro h hc
  simp [from_file, hmismatch] at hc

/-- C2 witness: a concrete mismatching digest aborts the load. -/
theorem c2_witness :
    from_file (fun _ => "ab") "xy" (Except.ok [1, 2])
      = LoadResult.aborted ("incorrect file") ∧
    ∀ h : BinaryHolder,
      from_file (fun _ => "ab") "xy" (Except.ok [1, 2]) ≠ LoadResult.ok h :=
  c2_digest_mismatch_aborts (fun _ => "ab") "xy" [1, 2] (by decide)

/-- C3: for every path where the file cannot be opened or fully read,
`from_file` returns the typed I/O error identifying the underlying cause
(the `?` operator propagates it) and no holder is constructed. -/
theorem c3_io_error_propagates
    (digest : List Nat → String) (hash_string : String) (e : IOErr) :
    from_file digest hash_string (Except.error e) = LoadResult.ioErr e ∧
    ∀ h : BinaryHolder,
      from_file digest hash_string (Except.error e) ≠ LoadResult.ok h := by
  refine ⟨rfl, ?_⟩
  intro h hc
  simp [from_file] at hc

/-- C4: for every constructed holder and every declared segment whose range
is within the buffer, calling that segment's accessor twice on the same
holder returns bit-identical content, and each call leaves the holder (and
its buffer) unchanged. -/
theorem c4_accessor_idempotent
    (seg : SegmentDescriptor) (h : BinaryHolder)
    (hle : seg.start ≤ seg.stop) (hstop : seg.stop ≤ h.bin_data.length) :
    (segAccessorRun seg h).1 = (segAccessorRun seg (segAccessorRun seg h).2).1 ∧
    (segAccessorRun seg h).2 = h ∧
    (segAccessorRun seg (segAccessorRun seg h).2).2 = h ∧
    ∃ w, (segAccessorRun seg h).1 = some w := by
  exact ⟨rfl, rfl, rfl,
    (h.bin_data.drop seg.start).take (seg.stop - seg.start),
    sliceRange_eq_some h.bin_data seg.start seg.stop hle hstop⟩

/-- C4 witness: a concrete holder and in-range segment. -/
theorem c4_witness :
    (segAccessorRun { start := 0, stop := 2 } { bin_data := [3, 4] }).1
      = (segAccessorRun { start := 0, stop := 2 }
          (segAccessorRun { start := 0, stop := 2 } { bin_data := [3, 4] }).2).1 ∧
    (segAccessorRun { start := 0, stop := 2 } { bin_data := [3, 4] }).2
      = { bin_data := [3, 4] } ∧
    (segAccessorRun { start := 0, stop := 2 }
        (segAccessorRun { start := 0, stop := 2 } { bin_data := [3, 4] }).2).2
      = { bin_data := [3, 4] } ∧
    ∃ w, (segAccessorRun { start := 0, stop := 2 } { bin_data := [3, 4] }).1
      = some w :=
  c4_accessor_idempotent { start := 0, stop := 2 } { bin_data := [3, 4] }
    (by decide) (by decide)

/-- C5: for every constructed holder and every declared segment whose range
is not contained in the buffer (`stop` or `start` exceeds the buffer's
length, or `start > stop`), the accessor fails abruptly at call time (the
slicing panic, modelled as `none`) and never returns truncated or garbage
data. -/
theorem c5_out_of_bounds_faults
    (seg : SegmentDescriptor) (h : BinaryHolder)
    (hbad : h.bin_data.length < seg.stop ∨ h.bin_data.length < seg.start ∨
            seg.stop < seg.start) :
    segAccessor seg h = none ∧ ∀ w, segAccessor seg h ≠ some w := by
  have hfail : ¬ (seg.start ≤ seg.stop ∧ seg.stop ≤ h.bin_data.length) := by
    omega
  have hnone : segAccessor seg h = none := by
    simp [segAccessor, sliceRange, hfail]
  exact ⟨hnone, fun w hc => by rw [hnone] at hc; exact Option.noConfusion hc⟩

/-- C5 witness: segment `1..5` on a 2-byte buffer faults. -/
theorem c5_witness :
    segAccessor { start := 1, stop := 5 } { bin_data := [1, 2] } = none ∧
    ∀ w, segAccessor { start := 1, stop := 5 } { bin_data := [1, 2] }
      ≠ some w :=
  c5_out_of_bounds_faults { start := 1, stop := 5 } { bin_data := [1, 2] }
    (by decide)

/-- C6: for every readable file, `from_file` succeeds if and only if the
digest string the hashing collaborator computes for the whole contents is
equal, as a case-sensitive exact string comparison, to the schema's
expected digest string; and since the collaborator's output is
lowercase-hex (its contract), an expected digest containing an uppercase
letter never matches. -/
theorem c6_success_iff_exact_digest_match
    (digest : List Nat → String) (hash_string : String) (b : List Nat)
    (hcontract : LowerHexDigest digest) :
    ((∃ h, from_file digest hash_string (Except.ok b) = LoadResult.ok h)
      ↔ digest b = hash_string) ∧
    (hasUpperChar hash_string = true →
      ¬ ∃ h, from_file digest hash_string (Except.ok b) = LoadResult.ok h) := by
  have hiff :
      (∃ h, from_file digest hash_string (Except.ok b) = LoadResult.ok h)
        ↔ digest b = hash_string := by
    constructor
    · rintro ⟨h, hok⟩
      by_cases hd : digest b = hash_string
      · exact hd
      · simp [from_file, hd] at hok
    · intro hd
      exact ⟨{ bin_data := b }, by simp [from_file, hd]⟩
  refine ⟨hiff, ?_⟩
  intro hup hex
  have hd : digest b = hash_string := hiff.mp hex
  rcases List.any_eq_true.mp hup with ⟨c, hcmem, hcup⟩
  have hall := List.all_eq_true.mp (hcontract b)
  have hlower : isLowerHexChar c = true := hall c (hd ▸ hcmem)
  have h1 := of_decide_eq_true hcup
  have h2 := of_decide_eq_true hlower
  have e0 : ('0' : Char).toNat = 48 := rfl
  have e9 : ('9' : Char).toNat = 57 := rfl
  have ea : ('a' : Char).toNat = 97 := rfl
  have ef : ('f' : Char).toNat = 102 := rfl
  have eA : ('A' : Char).toNat = 65 := rfl
  have eZ : ('Z' : Char).toNat = 90 := rfl
  rw [eA, eZ] at h1
  rw [e0, e9, ea, ef] at h2
  omega

/-- C6 witness: with a collaborator returning `"ab"`, the schema digest
`"ab"` matches (and `"ab"` has no uppercase letter, so the second conjunct
is vacuous). -/
theorem c6_witness :
    ((∃ h, from_file (fun _ => "ab") "ab" (Except.ok ([] : List Nat))
        = LoadResult.ok h)
      ↔ ((fun _ => "ab" : List Nat → String) ([] : List Nat)) = "ab") ∧
    (hasUpperChar "ab" = true →
      ¬ ∃ h, from_file (fun _ => "ab") "ab" (Except.ok ([] : List Nat))
        = LoadResult.ok h) :=
  c6_success_iff_exact_digest_match (fun _ => "ab") "ab" ([] : List Nat)
    (fun _ => rfl)

/-- C7: every reachable holder has passed digest verification: if
`from_file` returns a holder, then the file was fully read to some byte
list `b`, the digest of `b` equals the schema's expected digest, and the
holder's buffer is exactly `b` — so no accessor can ever run on unverified
bytes. -/
theorem c7_holder_implies_verified
    (digest : List Nat → String) (hash_string : String)
    (ro : Except IOErr (List Nat)) (h : BinaryHolder)
    (hok : from_file digest hash_string ro = LoadResult.ok h) :
    ∃ b, ro = Except.ok b ∧ digest b = hash_string ∧ h.bin_data = b := by
  cases ro with
  | error e => simp [from_file] at hok
  | ok b =>
    by_cases hd : digest b = hash_string
    · refine ⟨b, rfl, hd, ?_⟩
      simp [from_file, hd] at hok
      rw [← hok]
    · simp [from_file, hd] at hok

/-- C7 witness: the only way a concrete load produced a holder is with the
verified bytes inside. -/
theorem c7_witness :
    ∃ b, (Except.ok [7] : Except IOErr (List Nat)) = Except.ok b ∧
      (fun _ => "aa") b = "aa" ∧
      BinaryHolder.bin_data { bin_data := [7] } = b :=
  c7_holder_implies_verified (fun _ => "aa") "aa" (Except.ok [7])
    { bin_data := [7] } (by decide)

/-- C8: after construction the holder's byte buffer is never mutated:
calling an accessor is a pure read that leaves the holder (in particular
its buffer) unchanged, and its result is exactly the pure function of the
holder's state. -/
theorem c8_accessor_pure_no_mutation
    (seg : SegmentDescriptor) (h : BinaryHolder) :
    (segAccessorRun seg h).2 = h ∧
    ((segAccessorRun seg h).2).bin_data = h.bin_data ∧
    (segAccessorRun seg h).1 = segAccessor seg h :=
  ⟨rfl, rfl, rfl⟩

/-- C9: a segment declared with an empty range (`start = stop`, with
`start` not exceeding the buffer's length, including `start = stop = len`)
succeeds and returns the empty view of length zero rather than failing. -/
theorem c9_empty_range_empty_view
    (seg : SegmentDescriptor) (h : BinaryHolder)
    (heq : seg.start = seg.stop) (hlen : seg.start ≤ h.bin_data.length) :
    segAccessor seg h = some [] ∧
    ∃ w, segAccessor seg h = some w ∧ w.length = 0 := by
  have h1 : seg.start ≤ seg.stop := le_of_eq heq
  have h2 : seg.stop ≤ h.bin_data.length := heq ▸ hlen
  have hsome := sliceRange_eq_some h.bin_data seg.start seg.stop h1 h2
  have hzero : seg.stop - seg.start = 0 := by omega
  have hempty : segAccessor seg h = some [] := by
    rw [segAccessor, hsome, hzero]
    simp
  exact ⟨hempty, [], hempty, rfl⟩

/-- C9 witness: the empty segment `2..2` at the very end of a 2-byte
buffer. -/
theorem c9_witness :
    segAccessor { start := 2, stop := 2 } { bin_data := [5, 6] }
      = some [] ∧
    ∃ w, segAccessor { start := 2, stop := 2 } { bin_data := [5, 6] }
      = some w ∧ w.length = 0 :=
  c9_empty_range_empty_view { start := 2, stop := 2 } { bin_data := [5, 6] }
    (by decide) (by decide)

/-- C10: two declared segments whose in-buffer ranges overlap agree
byte-for-byte on the overlapping offsets, because both accessors read from
the same single buffer: at every file offset `i` inside both ranges, the
two views hold the same byte. -/
theorem c10_overlapping_segments_agree
    (s1 s2 : SegmentDescriptor) (h : BinaryHolder)
    (hov : max s1.start s2.start < min s1.stop s2.stop)
    (h1le : s1.start ≤ s1.stop) (h1stop : s1.stop ≤ h.bin_data.length)
    (h2le : s2.start ≤ s2.stop) (h2stop : s2.stop ≤ h.bin_data.length) :
    ∃ w1 w2, segAccessor s1 h = some w1 ∧ segAccessor s2 h = some w2 ∧
      ∀ i, max s1.start s2.start ≤ i → i < min s1.stop s2.stop →
        w1[i - s1.start]? = w2[i - s2.start]? := by
  refine ⟨(h.bin_data.drop s1.start).take (s1.stop - s1.start),
    (h.bin_data.drop s2.start).take (s2.stop - s2.start),
    sliceRange_eq_some h.bin_data s1.start s1.stop h1le h1stop,
    sliceRange_eq_some h.bin_data s2.start s2.stop h2le h2stop, ?_⟩
  intro i hlo hhi
  have e1 : s1.start + (i - s1.start) = i := by omega
  have e2 : s2.start + (i - s2.start) = i := by omega
  rw [sliceRange_getElem h.bin_data s1.start s1.stop (i - s1.start)
      (by omega),
    sliceRange_getElem h.bin_data s2.start s2.stop (i - s2.start)
      (by omega),
    e1, e2]

/-- C10 witness: segments `0..3` and `1..4` over a 4-byte buffer overlap on
offsets `1` and `2`. -/
theorem c10_witness :
    ∃ w1 w2,
      segAccessor { start := 0, stop := 3 } { bin_data := [9, 8, 7, 6] }
        = some w1 ∧
      segAccessor { start := 1, stop := 4 } { bin_data := [9, 8, 7, 6] }
        = some w2 ∧
      ∀ i, max 0 1 ≤ i → i < min 3 4 → w1[i - 0]? = w2[i - 1]? :=
  c10_overlapping_segments_agree { start := 0, stop := 3 }
    { start := 1, stop := 4 } { bin_data := [9, 8, 7, 6] }
    (by decide) (by decide) (by decide) (by decide) (by decide)
